import Mathlib

/-!
Shallow embedding of `main_SuperOpsTickets_import.py`, the SuperOps → Syncro
ticket migration script, together with proofs about its core logic:
technician resolution from conversation history, the note/conversation
timeline merge, the two ticket-matching strategies, the orchestrator's
required-field gate and cutoff filter, comment replay, and the
client/ticket aggregator.

Python dictionaries with optional keys are embedded as structures with
`Option` fields; `dict.get(key, default)` becomes `Option.getD`; Python
truthiness of a string (`if not s`) is `s ≠ ""` on the present value;
exceptions caught by the code's `try/except` blocks are embedded as the
value the handler returns.  Timestamps flowing through the merge and the
technician resolution are strings (as delivered by the GraphQL API) and
are compared with the lexicographic string order, matching Python's
comparison on the same values.
-/

/-- A value stored under a `user` / `addedBy` key when it is a well-formed
mapping: a dictionary with an optional `name` entry. -/
structure UserVal where
  name : Option String
deriving DecidableEq, Repr

/-- The `user` field of a conversation entry as the Python code can observe
it: absent (`conv.get("user")` yields `None`), present but not a dictionary
(malformed), or a well-formed mapping. -/
inductive UserField where
  | absent : UserField
  | malformed : UserField
  | valid : UserVal → UserField
deriving DecidableEq, Repr

/-- One conversation entry as returned by `getTicketConversationList`
(after HTML stripping): optional `type`, `content` and `time` fields, a
`user` field and a `toUsers` list (whose elements the migration only
carries around, so they are embedded as opaque strings). -/
structure ConversationEntry where
  type : Option String
  content : Option String
  time : Option String
  user : UserField
  toUsers : List String
deriving DecidableEq, Repr

/-- One note entry as returned by `getTicketNoteList` (after HTML
stripping): optional `content`, `addedBy` and `addedOn` fields. -/
structure NoteEntry where
  content : Option String
  addedBy : Option UserVal
  addedOn : Option String
deriving DecidableEq, Repr

/-- Python's lexicographic string comparison, by code point with a proper
prefix ordered first, computed on the character lists. -/
def strLt (a b : String) : Bool :=
  decide (a.toList < b.toList)

/-- Python's non-strict lexicographic string comparison. -/
def strLe (a b : String) : Bool :=
  decide (a.toList ≤ b.toList)

/-- Embedding of the sort key `x['time']` used by
`get_assigned_tech_and_user`; the surrounding guard ensures it is only
consulted when the field is present. -/
def timeKey (c : ConversationEntry) : String :=
  c.time.getD ""

/-- Embedding of Python's `max(tech_replies, key=lambda x: x['time'])`:
fold over the tail keeping the current element unless a strictly larger
key appears, so the first element with the maximal key wins, exactly as
Python's `max` does. -/
def maxByTime (c : ConversationEntry) (cs : List ConversationEntry) : ConversationEntry :=
  cs.foldl (fun best x => if strLt (timeKey best) (timeKey x) then x else best) c

/-- Embedding of `get_assigned_tech_and_user` (source lines 80–106).  The
code filters the conversations to those of type `TECH_REPLY`; if any
exist it takes `max(..., key=lambda x: x['time'])` and returns that
entry's `user` and `toUsers`; with no tech replies it returns
`(None, [])`.  A missing `time` key on any tech reply raises `KeyError`
inside `max`, which the function's `except` clause turns into
`(None, [])`; the `if ... all isSome` branch embeds exactly that. -/
def get_assigned_tech_and_user (convs : List ConversationEntry) :
    UserField × List String :=
  match convs.filter (fun c => c.type == some "TECH_REPLY") with
  | [] => (.absent, [])
  | c :: cs =>
    if (c :: cs).all (fun x => x.time.isSome) then
      ((maxByTime c cs).user, (maxByTime c cs).toUsers)
    else (.absent, [])

/-- Embedding of `get_description_content` (source lines 110–118): the
first conversation entry, in original order, whose type is
`DESCRIPTION`; its (optional) `content` is returned, `None` if no such
entry exists. -/
def get_description_content (convs : List ConversationEntry) : Option String :=
  match convs.find? (fun c => c.type == some "DESCRIPTION") with
  | some c => c.content
  | none => none

/-- A merged timeline entry as built by `combine_notes_and_conversations`:
all four fields defaulted, hence total. -/
structure TimelineEntry where
  type : String
  content : String
  user : String
  time : String
deriving DecidableEq, Repr

/-- The author a note contributes:
`note.get("addedBy", {}).get("name", "Unknown")`. -/
def noteAuthor (n : NoteEntry) : String :=
  match n.addedBy with
  | some u => u.name.getD "Unknown"
  | none => "Unknown"

/-- Mapping of one note into the merged timeline (source lines 213–219). -/
def noteToTimeline (n : NoteEntry) : TimelineEntry :=
  { type := "NOTE"
    content := n.content.getD "No Content"
    user := noteAuthor n
    time := n.addedOn.getD "Unknown Time" }

/-- The author a conversation contributes (source lines 222–231): when the
`user` field is absent or not a dictionary the code substitutes `{}`, so
the author degrades to `"Unknown"` instead of raising. -/
def convAuthor (u : UserField) : String :=
  match u with
  | .valid v => v.name.getD "Unknown"
  | _ => "Unknown"

/-- Mapping of one conversation into the merged timeline
(source lines 228–233). -/
def convToTimeline (c : ConversationEntry) : TimelineEntry :=
  { type := c.type.getD "Unknown"
    content := c.content.getD "No Content"
    user := convAuthor c.user
    time := c.time.getD "Unknown Time" }

/-- Boolean form of the sort comparator `key=lambda x: x["time"]` used by
`merged_items.sort`. -/
def timeLe (a b : TimelineEntry) : Bool :=
  strLe a.time b.time

/-- Insertion of an entry into a list, after every element whose time key
does not exceed its own. -/
def insertByTime (e : TimelineEntry) : List TimelineEntry → List TimelineEntry
  | [] => [e]
  | x :: xs => if timeLe x e then x :: insertByTime e xs else e :: x :: xs

/-- Embedding of `merged_items.sort(key=lambda x: x["time"])` as an
insertion sort.  The development relies only on the result being a
permutation of the input that is non-decreasing in the key, which any
comparison sort (in particular Python's) satisfies. -/
def sortByTime : List TimelineEntry → List TimelineEntry
  | [] => []
  | x :: xs => insertByTime x (sortByTime xs)

/-- The value `combine_notes_and_conversations` returns is either a list
of merged entries or the single sentinel string, so its elements are a
sum. -/
abbrev TimelineItem := TimelineEntry ⊕ String

/-- Embedding of `combine_notes_and_conversations` (source lines 199–239):
map every note and every conversation into a uniform entry, sort the
concatenation by the `time` field ascending, and substitute the one-string
sentinel list when the merged list is empty. -/
def combine_notes_and_conversations (notes : List NoteEntry)
    (convs : List ConversationEntry) : List TimelineItem :=
  if (sortByTime (notes.map noteToTimeline ++ convs.map convToTimeline)).isEmpty then
    [Sum.inr "No notes or conversations found."]
  else (sortByTime (notes.map noteToTimeline ++ convs.map convToTimeline)).map Sum.inl

/-- Projection recovering the structured entries of a combined timeline
(the sentinel string carries no entry). -/
def entriesOf (l : List TimelineItem) : List TimelineEntry :=
  l.filterMap (fun i => match i with | Sum.inl e => some e | Sum.inr _ => none)

/-- Python truthiness of an optional string field: `if not s` fires on a
missing key and on the empty string. -/
def truthyStr (o : Option String) : Bool :=
  match o with
  | some s => s != ""
  | none => false

/-- Python truthiness of an optional numeric field: `if not d` fires on a
missing key and on zero. -/
def truthyNat (o : Option Nat) : Bool :=
  match o with
  | some n => n != 0
  | none => false

/-- Embedding of Python's substring containment `pat in hay`. -/
def containsSub (hay pat : String) : Bool :=
  decide (pat.toList <:+: hay.toList)

/-- A SuperOps ticket record as the comparison functions read it: the
fields `.get` can fail to find are optional. -/
structure SuperTicket where
  subject : Option String
  displayId : Option Nat
  created_time : Option String
deriving DecidableEq, Repr

/-- A Syncro ticket as delivered by `extract_ticket_subjects_and_dates`. -/
structure SyncroTicket where
  ticket_id : Nat
  subject : Option String
  created_at : Option String
deriving DecidableEq, Repr

/-- Body of the inner Syncro-ticket loop of `compare_tickets_by_subject`
(source lines 368–385): skip a destination ticket with a falsy subject,
test `str(displayId) in syncro_subject`, and append the display id unless
it is already in the matched list. -/
def stepB (d : Nat) (acc : List Nat) (st : SyncroTicket) : List Nat :=
  if truthyStr st.subject then
    if containsSub (st.subject.getD "") (Nat.repr d) then
      if d ∈ acc then acc else acc ++ [d]
    else acc
  else acc

/-- Embedding of `compare_tickets_by_subject` (source lines 338–396,
Strategy B): iterate the SuperOps tickets, skip those with a falsy
subject or falsy display id, and run the inner loop, threading one
matched list through both loops. -/
def compare_tickets_by_subject (superops : List (Nat × SuperTicket))
    (syncro : List SyncroTicket) : List Nat :=
  superops.foldl (fun acc p =>
    if truthyStr p.2.subject then
      if truthyNat p.2.displayId then
        syncro.foldl (stepB (p.2.displayId.getD 0)) acc
      else acc
    else acc) []

/-- One destination ticket satisfies Strategy B for display id `d`. -/
def matchesB (d : Nat) (st : SyncroTicket) : Bool :=
  truthyStr st.subject && containsSub (st.subject.getD "") (Nat.repr d)

/-- Body of the inner Syncro-ticket loop of
`compare_tickets_by_subject_and_date` (source lines 305–326): skip a
destination ticket with a falsy subject or falsy created-at, compare
subject and created timestamp for exact equality, and append the SuperOps
ticket id unless already matched. -/
def stepA (tid : Nat) (subject created : String) (acc : List Nat)
    (st : SyncroTicket) : List Nat :=
  if truthyStr st.subject && truthyStr st.created_at then
    if subject == st.subject.getD "" && created == st.created_at.getD "" then
      if tid ∈ acc then acc else acc ++ [tid]
    else acc
  else acc

/-- Embedding of `compare_tickets_by_subject_and_date` (source lines
275–336, Strategy A): iterate the SuperOps tickets, skip those with a
falsy subject or falsy created time, and run the inner loop. -/
def compare_tickets_by_subject_and_date (superops : List (Nat × SuperTicket))
    (syncro : List SyncroTicket) : List Nat :=
  superops.foldl (fun acc p =>
    if truthyStr p.2.subject && truthyStr p.2.created_time then
      syncro.foldl (stepA p.1 (p.2.subject.getD "") (p.2.created_time.getD "")) acc
    else acc) []

/-- One destination ticket satisfies Strategy A for the given subject and
created timestamp. -/
def matchesA (subject created : String) (st : SyncroTicket) : Bool :=
  truthyStr st.subject && truthyStr st.created_at &&
    (subject == st.subject.getD "") && (created == st.created_at.getD "")

/-- A timestamp parsed by `datetime.strptime(..., "%Y-%m-%dT%H:%M:%S%z")`
with the offset left implicit: the cutoff comparison replaces the cutoff's
tzinfo with the ticket's own, and two aware datetimes with equal offsets
compare exactly as their naive components, so only those components are
carried. -/
structure NaiveDT where
  year : Nat
  month : Nat
  day : Nat
  hour : Nat
  minute : Nat
  second : Nat
deriving DecidableEq, Repr

/-- Lexicographic order on datetime components, matching Python's
comparison of two datetimes with identical offsets. -/
def naiveLt (a b : NaiveDT) : Bool :=
  decide (a.year < b.year ∨ (a.year = b.year ∧ (a.month < b.month ∨ (a.month = b.month ∧
    (a.day < b.day ∨ (a.day = b.day ∧ (a.hour < b.hour ∨ (a.hour = b.hour ∧
      (a.minute < b.minute ∨ (a.minute = b.minute ∧ a.second < b.second))))))))))

/-- Embedding of `cutoff_date = datetime(2024, 4, 1)` (source line 20). -/
def cutoff_date : NaiveDT :=
  ⟨2024, 4, 1, 0, 0, 0⟩

/-- Python's `f"{displayId}"` on an optional numeric field: `None` prints
as the four-character string `"None"`. -/
def pyStrOptNat : Option Nat → String
  | none => "None"
  | some n => Nat.repr n

/-- Python's `displayId in matched_ticket_ids` where the left side may be
`None`: `None` is never an element of a list of numbers. -/
def pyMemOpt (o : Option Nat) (l : List Nat) : Bool :=
  match o with
  | some d => decide (d ∈ l)
  | none => false

/-- Embedding of the comment-replay loop over the merged timeline (source
lines 526–543): a structured entry of type `DESCRIPTION` is skipped, any
other structured entry produces one comment-creation call (represented by
the entry passed to `build_syncro_comment`), and a bare string entry (the
empty-timeline sentinel) raises `AttributeError` on `entry.get`, which the
ticket-level handler catches, aborting the loop with no further calls. -/
def replayItems : List TimelineItem → List TimelineEntry
  | [] => []
  | Sum.inl e :: rest =>
    if e.type == "DESCRIPTION" then replayItems rest else e :: replayItems rest
  | Sum.inr _ :: _ => []

/-- The ticket fields `process_individual_ticket` consults.  The field
`created` holds the value of the converted created timestamp (produced by
the external `get_syncro_created_date` and reparsed by `strptime`);
a ticket whose raw `created_time` is missing or empty has `created = none`. -/
structure OrchTicketInfo where
  subject : Option String
  displayId : Option Nat
  created : Option NaiveDT
  notes : List NoteEntry
  conversations : List ConversationEntry
deriving Repr

/-- Outcome of `process_individual_ticket` for one ticket: skipped at the
required-field gate, already present in Syncro, skipped by the cutoff
filter, or created (carrying the comment-creation calls replayed onto the
new ticket, assuming the creation call succeeds). -/
inductive Outcome where
  | skippedMissing : Outcome
  | alreadyExists : Outcome
  | cutoffSkipped : Outcome
  | created : List TimelineEntry → Outcome
deriving DecidableEq, Repr

/-- Embedding of the decision flow of `process_individual_ticket` (source
lines 454–543).  The subject is reassigned to
`ticket_info.get("subject", "") + f" {displayId}"` before the gate
`if not subject or not created_time` runs, then the timeline is built,
the matched list consulted, the cutoff applied, and otherwise the ticket
is created and its timeline replayed as comments. -/
def process_individual_ticket (info : OrchTicketInfo) (matched : List Nat) :
    Outcome :=
  match info.created with
  | none => .skippedMissing
  | some t =>
    if (info.subject.getD "" ++ " " ++ pyStrOptNat info.displayId) == "" then
      .skippedMissing
    else if pyMemOpt info.displayId matched then .alreadyExists
    else if naiveLt t cutoff_date then .cutoffSkipped
    else .created (replayItems
      (if !info.notes.isEmpty || !info.conversations.isEmpty then
        combine_notes_and_conversations info.notes info.conversations
      else [Sum.inr "No notes or conversations found."]))

/-- The outcome in which a destination-ticket creation call is issued. -/
def creationAttempted : Outcome → Bool
  | .created _ => true
  | _ => false

/-- A SuperOps client as returned by `getClientList`. -/
structure SClient where
  accountId : Nat
  name : String
deriving DecidableEq, Repr

/-- A SuperOps ticket as returned by `getTicketList`. -/
structure STicket where
  ticketId : Nat
  displayId : Option Nat
  subject : Option String
  status : Option String
  priority : Option String
  createdTime : Option String
deriving DecidableEq, Repr

/-- Modelled from the spec: the external SuperOps read-only collaborator of
section 6 — a client list served page-wise by `listClients`, and per
client a ticket list served page-wise by `listTickets`, with
conversations and notes per ticket. -/
structure Source where
  clients : List SClient
  ticketsOf : Nat → List STicket
  convsOf : Nat → List ConversationEntry
  notesOf : Nat → List NoteEntry

/-- Modelled from the spec: `listClients(page, pageSize)` returns the
requested page of the source's client list. -/
def getClientPage (src : Source) (page pageSize : Nat) : List SClient :=
  (src.clients.drop ((page - 1) * pageSize)).take pageSize

/-- Modelled from the spec: `listTickets` returns the requested ten-ticket
page (`p0` is the zero-based page index). -/
def getTicketPage (l : List STicket) (p0 : Nat) : List STicket :=
  (l.drop (p0 * 10)).take 10

/-- Modelled from the spec: the paging metadata `hasMore` reported with a
ticket page is true exactly when tickets remain beyond that page. -/
def ticketPageHasMore (l : List STicket) (p0 : Nat) : Bool :=
  decide ((p0 + 1) * 10 < l.length)

/-- Embedding of the `while True` pagination loop of
`get_tickets_for_client` (source lines 154–197): fetch a page, keep its
tickets with a truthy `ticketId` (the others are skipped before
conversations and notes are attached), stop when `hasMore` is false,
otherwise advance the page.  The `fuel` argument bounds the iterations of
the unbounded loop; whenever it is at least the number of pages the loop
exits through `hasMore` exactly as the code does. -/
def getTicketsLoop (l : List STicket) : Nat → Nat → List STicket
  | 0, _ => []
  | fuel + 1, p0 =>
    if ticketPageHasMore l p0 then
      ((getTicketPage l p0).filter (fun t => t.ticketId != 0))
        ++ getTicketsLoop l fuel (p0 + 1)
    else (getTicketPage l p0).filter (fun t => t.ticketId != 0)

/-- Embedding of `get_tickets_for_client`, starting at page 1 (zero-based
index 0). -/
def get_tickets_for_client (l : List STicket) (fuel : Nat) : List STicket :=
  getTicketsLoop l fuel 0

/-- The denormalized per-ticket record the aggregator builds:
`extract_ticket_details` plus the derived `assigned_tech`, `contact` and
`description` fields (source lines 62–77 and 264–266). -/
structure TicketRecord where
  displayId : Option Nat
  ticketId : Nat
  subject : Option String
  status : Option String
  priority : Option String
  created_time : Option String
  notes : List NoteEntry
  conversations : List ConversationEntry
  assigned_tech : UserField
  contact : List String
  description : Option String
deriving DecidableEq, Repr

/-- Construction of one TicketRecord from a fetched ticket with its
attached conversations and notes (source lines 187–188 and 262–268). -/
def mkTicketRecord (src : Source) (t : STicket) : TicketRecord :=
  { displayId := t.displayId
    ticketId := t.ticketId
    subject := t.subject
    status := t.status
    priority := t.priority
    created_time := t.createdTime
    notes := src.notesOf t.ticketId
    conversations := src.convsOf t.ticketId
    assigned_tech := (get_assigned_tech_and_user (src.convsOf t.ticketId)).1
    contact := (get_assigned_tech_and_user (src.convsOf t.ticketId)).2
    description := get_description_content (src.convsOf t.ticketId) }

/-- Embedding of `get_all_clients_with_tickets` (source lines 242–272):
a single `getClientList` call with `page = 1, pageSize = 100` — there is
no client pagination loop — then, per fetched client, the full ticket
pagination and the per-ticket record construction (tickets with a falsy
`ticketId` were already dropped during the ticket fetch; the second falsy
check at line 263 is therefore vacuous). -/
def get_all_clients_with_tickets (src : Source) (fuel : Nat) :
    List (String × List (Nat × TicketRecord)) :=
  (getClientPage src 1 100).map (fun c =>
    (c.name, (get_tickets_for_client (src.ticketsOf c.accountId) fuel).map
      (fun t => (t.ticketId, mkTicketRecord src t))))

/-- A concrete source with 101 clients (named by their index) and no
tickets, exhibiting the missing client pagination. -/
def src101 : Source :=
  { clients := (List.range 101).map (fun i => ⟨i, Nat.repr i⟩)
    ticketsOf := fun _ => []
    convsOf := fun _ => []
    notesOf := fun _ => [] }

/-- A concrete unmatched orchestrator ticket with the given converted
created timestamp, used to exercise the cutoff filter. -/
def cutoffDemoTicket (t : NaiveDT) : OrchTicketInfo :=
  { subject := some "Printer broken"
    displayId := some 77
    created := some t
    notes := []
    conversations := [] }

/-- A concrete orchestrator ticket with no subject at all but a valid
display id and created time: the gate is expected (per the spec) to skip
it, yet the code proceeds. -/
def missingSubjectTicket : OrchTicketInfo :=
  { subject := none
    displayId := some 7
    created := some ⟨2024, 5, 1, 0, 0, 0⟩
    notes := []
    conversations := [] }

/-- A concrete customer-reply conversation entry, mirroring the
repository's unit-test data. -/
def demoCustomer : ConversationEntry :=
  ⟨some "CUSTOMER_REPLY", none, some "0", .valid ⟨some "Customer"⟩, ["Tech"]⟩

/-- A concrete tech-reply conversation entry with time "2". -/
def demoTech2 : ConversationEntry :=
  ⟨some "TECH_REPLY", none, some "2", .valid ⟨some "Tech2"⟩, ["User2"]⟩

/-- A concrete tech-reply conversation entry with time "1". -/
def demoTech1 : ConversationEntry :=
  ⟨some "TECH_REPLY", none, some "1", .valid ⟨some "Tech1"⟩, ["User1"]⟩

/-- A concrete conversation list with one customer reply and two tech
replies (times "1" and "2"), mirroring the repository's unit-test data. -/
def demoConvs : List ConversationEntry :=
  [demoCustomer, demoTech2, demoTech1]

/-- A concrete note entry. -/
def demoNote : NoteEntry :=
  ⟨some "n1", some ⟨some "Al"⟩, some "2024-03"⟩

/-- A concrete conversation entry whose `user` field is present but not a
mapping. -/
def demoConvMalformed : ConversationEntry :=
  ⟨some "MSG", some "hello", some "2024-02", .malformed, []⟩

/-- A concrete source with one client owning three tickets, used to
instantiate the aggregator theorem. -/
def srcW : Source :=
  { clients := [⟨5, "Acme"⟩]
    ticketsOf := fun _ =>
      [⟨1, some 11, some "a", none, none, some "2024-05-01T00:00:00-0500"⟩,
       ⟨2, some 12, some "b", none, none, some "2024-05-02T00:00:00-0500"⟩,
       ⟨3, some 13, some "c", none, none, some "2024-05-03T00:00:00-0500"⟩]
    convsOf := fun _ => []
    notesOf := fun _ => [] }

theorem strLe_total (a b : String) : strLe a b = true ∨ strLe b a = true := by
  unfold strLe
  rcases le_total a.toList b.toList with h | h
  · exact Or.inl (by simpa using h)
  · exact Or.inr (by simpa using h)

theorem timeLe_total (a b : TimelineEntry) : timeLe a b = true ∨ timeLe b a = true :=
  strLe_total a.time b.time

theorem timeLe_trans {a b c : TimelineEntry} (h1 : timeLe a b = true)
    (h2 : timeLe b c = true) : timeLe a c = true := by
  unfold timeLe strLe at *
  simp only [decide_eq_true_eq] at *
  exact le_trans h1 h2

theorem insertByTime_perm (e : TimelineEntry) :
    ∀ l : List TimelineEntry, List.Perm (insertByTime e l) (e :: l) := by
  intro l
  induction l with
  | nil => exact List.Perm.refl _
  | cons x xs ih =>
    simp only [insertByTime]
    cases hxe : timeLe x e
    · simp
    · simp only [if_true]
      exact (ih.cons x).trans (List.Perm.swap e x xs)

theorem mem_insertByTime {y e : TimelineEntry} {l : List TimelineEntry} :
    y ∈ insertByTime e l ↔ y = e ∨ y ∈ l := by
  rw [(insertByTime_perm e l).mem_iff]
  simp

theorem insertByTime_pairwise (e : TimelineEntry) :
    ∀ l : List TimelineEntry, l.Pairwise (fun a b => timeLe a b = true) →
      (insertByTime e l).Pairwise (fun a b => timeLe a b = true) := by
  intro l
  induction l with
  | nil => intro _; simp [insertByTime]
  | cons x xs ih =>
    intro h
    rw [List.pairwise_cons] at h
    simp only [insertByTime]
    cases hxe : timeLe x e
    · simp only [Bool.false_eq_true, if_false]
      rw [List.pairwise_cons]
      have hex : timeLe e x = true := (timeLe_total x e).resolve_left (by simp [hxe])
      refine ⟨fun y hy => ?_, List.pairwise_cons.mpr h⟩
      rcases List.mem_cons.mp hy with rfl | hy
      · exact hex
      · exact timeLe_trans hex (h.1 y hy)
    · simp only [if_true]
      rw [List.pairwise_cons]
      refine ⟨fun y hy => ?_, ih h.2⟩
      rcases mem_insertByTime.mp hy with rfl | hy
      · exact hxe
      · exact h.1 y hy

theorem sortByTime_perm : ∀ l : List TimelineEntry, List.Perm (sortByTime l) l := by
  intro l
  induction l with
  | nil => exact List.Perm.refl _
  | cons x xs ih =>
    simp only [sortByTime]
    exact (insertByTime_perm x (sortByTime xs)).trans (ih.cons x)

theorem sortByTime_pairwise :
    ∀ l : List TimelineEntry, (sortByTime l).Pairwise (fun a b => timeLe a b = true) := by
  intro l
  induction l with
  | nil => simp [sortByTime]
  | cons x xs ih =>
    simp only [sortByTime]
    exact insertByTime_pairwise x _ ih

theorem entriesOf_map_inl (l : List TimelineEntry) : entriesOf (l.map Sum.inl) = l := by
  induction l with
  | nil => rfl
  | cons x xs ih =>
    simp only [List.map_cons, entriesOf, List.filterMap_cons] at ih ⊢
    rw [ih]

/-- C2: for every pair (notes, conversations), the list returned by
`combine_notes_and_conversations` is non-decreasing in the `time` field of
its entries, and when both input lists are empty the result is the single
sentinel `["No notes or conversations found."]`, never an empty
sequence. -/
theorem merged_timeline_sorted_and_sentinel (notes : List NoteEntry)
    (convs : List ConversationEntry) :
    (entriesOf (combine_notes_and_conversations notes convs)).Pairwise
        (fun a b => strLe a.time b.time = true) ∧
    (notes = [] ∧ convs = [] →
      combine_notes_and_conversations notes convs
        = [Sum.inr "No notes or conversations found."]) ∧
    combine_notes_and_conversations notes convs ≠ [] := by
  unfold combine_notes_and_conversations
  cases h : (sortByTime (notes.map noteToTimeline ++ convs.map convToTimeline)).isEmpty
  · simp only [Bool.false_eq_true, if_false]
    refine ⟨?_, ?_, ?_⟩
    · rw [entriesOf_map_inl]
      exact sortByTime_pairwise _
    · rintro ⟨rfl, rfl⟩
      simp [sortByTime] at h
    · intro hemp
      rw [List.map_eq_nil_iff] at hemp
      rw [hemp] at h
      simp at h
  · refine ⟨?_, ?_, ?_⟩
    · simp [entriesOf]
    · intro _
      rfl
    · simp

/-- Witness for C2 at the concrete input ([], []). -/
theorem merged_timeline_sorted_and_sentinel_witness :
    combine_notes_and_conversations [] []
      = [Sum.inr "No notes or conversations found."] :=
  (merged_timeline_sorted_and_sentinel [] []).2.1 ⟨rfl, rfl⟩

/-- C10: for every pair (notes, conversations) with at least one entry in
total, the returned list consists exactly of the per-entry mappings of the
inputs: its length is `notes.length + convs.length`, and its structured
entries are a permutation of the mapped notes (each of type "NOTE")
followed by the mapped conversations (each carrying its type tag), with
nothing dropped or duplicated. -/
theorem merged_timeline_permutation (notes : List NoteEntry)
    (convs : List ConversationEntry)
    (h : 1 ≤ notes.length + convs.length) :
    combine_notes_and_conversations notes convs
        = (sortByTime (notes.map noteToTimeline ++ convs.map convToTimeline)).map Sum.inl ∧
    List.Perm (entriesOf (combine_notes_and_conversations notes convs))
        (notes.map noteToTimeline ++ convs.map convToTimeline) ∧
    (combine_notes_and_conversations notes convs).length
        = notes.length + convs.length := by
  have hlen : (sortByTime (notes.map noteToTimeline ++ convs.map convToTimeline)).length
      = notes.length + convs.length := by
    rw [(sortByTime_perm _).length_eq]
    simp
  have hne : (sortByTime (notes.map noteToTimeline ++ convs.map convToTimeline)).isEmpty = false := by
    rw [List.isEmpty_eq_false]
    intro h0
    rw [h0] at hlen
    simp at hlen
    omega
  unfold combine_notes_and_conversations
  rw [hne]
  simp only [Bool.false_eq_true, if_false]
  refine ⟨trivial, ?_, ?_⟩
  · rw [entriesOf_map_inl]
    exact sortByTime_perm _
  · rw [List.length_map, hlen]

/-- Witness for C10 at a concrete one-note input. -/
theorem merged_timeline_permutation_witness :
    combine_notes_and_conversations [demoNote] []
        = (sortByTime ([demoNote].map noteToTimeline ++ ([] : List ConversationEntry).map convToTimeline)).map Sum.inl ∧
    List.Perm (entriesOf (combine_notes_and_conversations [demoNote] []))
        ([demoNote].map noteToTimeline ++ ([] : List ConversationEntry).map convToTimeline) ∧
    (combine_notes_and_conversations [demoNote] []).length
        = [demoNote].length + ([] : List ConversationEntry).length :=
  merged_timeline_permutation [demoNote] [] (by decide)

/-- C9: a conversation entry whose `user` field is absent or not a
well-formed mapping does not make `combine_notes_and_conversations` raise
(the embedding of the handling is total); the entry is still included in
the merged timeline and its author is "Unknown". -/
theorem conversation_author_defaults (notes : List NoteEntry)
    (convs : List ConversationEntry) (c : ConversationEntry)
    (hc : c ∈ convs) (hu : c.user = .absent ∨ c.user = .malformed) :
    (convToTimeline c).user = "Unknown" ∧
    Sum.inl (convToTimeline c) ∈ combine_notes_and_conversations notes convs := by
  have huser : (convToTimeline c).user = "Unknown" := by
    rcases hu with hu | hu <;> simp [convToTimeline, convAuthor, hu]
  refine ⟨huser, ?_⟩
  have hmem : convToTimeline c ∈ notes.map noteToTimeline ++ convs.map convToTimeline := by
    apply List.mem_append_right
    exact List.mem_map_of_mem convToTimeline hc
  have hmem2 : convToTimeline c ∈ sortByTime (notes.map noteToTimeline ++ convs.map convToTimeline) :=
    (sortByTime_perm _).mem_iff.mpr hmem
  have hne : (sortByTime (notes.map noteToTimeline ++ convs.map convToTimeline)).isEmpty = false := by
    rw [List.isEmpty_eq_false]
    intro h0
    rw [h0] at hmem2
    exact absurd hmem2 (List.not_mem_nil _)
  unfold combine_notes_and_conversations
  rw [hne]
  simp only [Bool.false_eq_true, if_false]
  exact List.mem_map_of_mem Sum.inl hmem2

/-- Witness for C9 at a concrete malformed-user conversation entry. -/
theorem conversation_author_defaults_witness :
    (convToTimeline demoConvMalformed).user = "Unknown" ∧
    Sum.inl (convToTimeline demoConvMalformed)
      ∈ combine_notes_and_conversations [demoNote] [demoConvMalformed] :=
  conversation_author_defaults [demoNote] [demoConvMalformed] demoConvMalformed
    (by decide) (Or.inr rfl)

theorem strLe_refl (a : String) : strLe a a = true := by
  simp [strLe]

theorem strLe_of_strLt {a b : String} (h : strLt a b = true) : strLe a b = true := by
  unfold strLt at h
  unfold strLe
  simp only [decide_eq_true_eq] at *
  exact le_of_lt h

theorem strLe_of_not_strLt {a b : String} (h : strLt a b = false) : strLe b a = true := by
  unfold strLt at h
  unfold strLe
  rw [decide_eq_false_iff_not] at h
  simp only [decide_eq_true_eq]
  exact le_of_not_lt h

theorem strLe_trans {a b c : String} (h1 : strLe a b = true)
    (h2 : strLe b c = true) : strLe a c = true := by
  unfold strLe at *
  simp only [decide_eq_true_eq] at *
  exact le_trans h1 h2

theorem maxByTime_mem : ∀ (cs : List ConversationEntry) (c : ConversationEntry),
    maxByTime c cs ∈ c :: cs := by
  intro cs
  induction cs with
  | nil =>
    intro c
    simp [maxByTime]
  | cons x xs ih =>
    intro c
    have hstep : maxByTime c (x :: xs)
        = maxByTime (if strLt (timeKey c) (timeKey x) then x else c) xs := rfl
    rw [hstep]
    rcases List.mem_cons.mp (ih (if strLt (timeKey c) (timeKey x) then x else c)) with h | h
    · rw [h]
      by_cases hcx : strLt (timeKey c) (timeKey x) = true <;> simp [hcx]
    · simp [List.mem_cons, h]

theorem maxByTime_ge : ∀ (cs : List ConversationEntry) (c : ConversationEntry),
    ∀ x ∈ c :: cs, strLe (timeKey x) (timeKey (maxByTime c cs)) = true := by
  intro cs
  induction cs with
  | nil =>
    intro c x hx
    rcases List.mem_cons.mp hx with rfl | hx
    · exact strLe_refl _
    · exact absurd hx (List.not_mem_nil _)
  | cons y ys ih =>
    intro c x hx
    have hstep : maxByTime c (y :: ys)
        = maxByTime (if strLt (timeKey c) (timeKey y) then y else c) ys := rfl
    rw [hstep]
    have hc2 : strLe (timeKey c)
        (timeKey (if strLt (timeKey c) (timeKey y) then y else c)) = true := by
      cases hcy : strLt (timeKey c) (timeKey y)
      · simp only [Bool.false_eq_true, if_false]
        exact strLe_refl _
      · simp only [if_true]
        exact strLe_of_strLt hcy
    have hy2 : strLe (timeKey y)
        (timeKey (if strLt (timeKey c) (timeKey y) then y else c)) = true := by
      cases hcy : strLt (timeKey c) (timeKey y)
      · simp only [Bool.false_eq_true, if_false]
        exact strLe_of_not_strLt hcy
      · simp only [if_true]
        exact strLe_refl _
    have hc3 := ih (if strLt (timeKey c) (timeKey y) then y else c)
      (if strLt (timeKey c) (timeKey y) then y else c) (List.mem_cons_self _ _)
    rcases List.mem_cons.mp hx with rfl | hx
    · exact strLe_trans hc2 hc3
    rcases List.mem_cons.mp hx with rfl | hx
    · exact strLe_trans hy2 hc3
    · exact ih _ x (List.mem_cons_of_mem _ hx)

/-- C1: for every list of conversation entries,
`get_assigned_tech_and_user` selects among the TECH_REPLY entries one with
the maximum `time` value and returns its `user` as the assigned technician
together with its `toUsers` list, and for a list with zero TECH_REPLY
entries it returns the absent technician and the empty contact list
(Python's `(None, [])`). -/
theorem resolve_tech_uses_max_time (convs : List ConversationEntry) :
    (convs.filter (fun c => c.type == some "TECH_REPLY") = [] →
      get_assigned_tech_and_user convs = (.absent, [])) ∧
    (∀ c cs, convs.filter (fun c => c.type == some "TECH_REPLY") = c :: cs →
      (∀ x ∈ c :: cs, x.time.isSome = true) →
      ∃ b ∈ c :: cs, get_assigned_tech_and_user convs = (b.user, b.toUsers) ∧
        ∀ x ∈ c :: cs, strLe (timeKey x) (timeKey b) = true) := by
  constructor
  · intro h
    unfold get_assigned_tech_and_user
    rw [h]
  · intro c cs hf hall
    refine ⟨maxByTime c cs, maxByTime_mem cs c, ?_, fun x hx => maxByTime_ge cs c x hx⟩
    have hcond : ((c :: cs).all fun x => x.time.isSome) = true := by
      rw [List.all_eq_true]
      intro x hx
      exact hall x hx
    unfold get_assigned_tech_and_user
    rw [hf]
    simp only [hcond, if_true]

/-- Witness for C1: on the concrete three-entry conversation list the
selected tech reply is the one with the larger time. -/
theorem resolve_tech_uses_max_time_witness :
    ∃ b ∈ [demoTech2, demoTech1],
      get_assigned_tech_and_user demoConvs = (b.user, b.toUsers) ∧
      ∀ x ∈ [demoTech2, demoTech1], strLe (timeKey x) (timeKey b) = true :=
  (resolve_tech_uses_max_time demoConvs).2 demoTech2 [demoTech1] (by decide) (by decide)

theorem subject_with_id_ne_empty (s : Option String) (d : Option Nat) :
    ((s.getD "" ++ " " ++ pyStrOptNat d) == "") = false := by
  rw [beq_eq_false_iff_ne]
  intro h
  have hlen := congrArg String.length h
  simp [String.length_append] at hlen
  exact absurd hlen.1.2 (by decide)

/-- C4 (evaluation at the failing input): a ticket whose subject is
entirely missing, but which has a display id and a created time, is not
stopped by the required-field gate — the display-id suffix appended at
source line 468 makes the reassigned subject non-empty before the gate at
line 473 runs — and the ticket proceeds past the gate and the match check
all the way to a creation call, contradicting the claim that it is
skipped. -/
theorem missing_subject_ticket_not_skipped :
    missingSubjectTicket.subject = none ∧
    process_individual_ticket missingSubjectTicket [] = .created [] :=
  ⟨rfl, by decide⟩

/-- C5: for every unmatched ticket that reaches the cutoff check, the
outcome is the cutoff skip exactly when the converted created timestamp is
strictly earlier than the 2024-04-01 cutoff (compared in the ticket's own
offset), and a creation call is issued exactly otherwise; in particular a
ticket converted to 2024-03-31T23:59:59 is skipped while one at exactly
2024-04-01T00:00:00 is created. -/
theorem cutoff_filter_strict (info : OrchTicketInfo) (matched : List Nat)
    (t : NaiveDT) (hc : info.created = some t)
    (hm : pyMemOpt info.displayId matched = false) :
    (process_individual_ticket info matched = .cutoffSkipped ↔
      naiveLt t cutoff_date = true) ∧
    (creationAttempted (process_individual_ticket info matched) = true ↔
      naiveLt t cutoff_date = false) ∧
    process_individual_ticket (cutoffDemoTicket ⟨2024, 3, 31, 23, 59, 59⟩) []
      = .cutoffSkipped ∧
    process_individual_ticket (cutoffDemoTicket ⟨2024, 4, 1, 0, 0, 0⟩) []
      = .created [] := by
  have hred : process_individual_ticket info matched
      = if naiveLt t cutoff_date then .cutoffSkipped
        else .created (replayItems
          (if !info.notes.isEmpty || !info.conversations.isEmpty then
            combine_notes_and_conversations info.notes info.conversations
          else [Sum.inr "No notes or conversations found."])) := by
    unfold process_individual_ticket
    rw [hc]
    simp only [subject_with_id_ne_empty, Bool.false_eq_true, if_false, hm]
  refine ⟨?_, ?_, by decide, by decide⟩
  · rw [hred]
    cases hlt : naiveLt t cutoff_date <;> simp
  · rw [hred]
    cases hlt : naiveLt t cutoff_date <;> simp [creationAttempted]

/-- Witness for C5 at the concrete pre-cutoff timestamp. -/
theorem cutoff_filter_strict_witness :
    (process_individual_ticket (cutoffDemoTicket ⟨2024, 3, 31, 23, 59, 59⟩) []
        = .cutoffSkipped ↔
      naiveLt ⟨2024, 3, 31, 23, 59, 59⟩ cutoff_date = true) ∧
    (creationAttempted
        (process_individual_ticket (cutoffDemoTicket ⟨2024, 3, 31, 23, 59, 59⟩) []) = true ↔
      naiveLt ⟨2024, 3, 31, 23, 59, 59⟩ cutoff_date = false) ∧
    process_individual_ticket (cutoffDemoTicket ⟨2024, 3, 31, 23, 59, 59⟩) []
      = .cutoffSkipped ∧
    process_individual_ticket (cutoffDemoTicket ⟨2024, 4, 1, 0, 0, 0⟩) []
      = .created [] :=
  cutoff_filter_strict (cutoffDemoTicket ⟨2024, 3, 31, 23, 59, 59⟩) []
    ⟨2024, 3, 31, 23, 59, 59⟩ rfl (by decide)

/-- C7: during comment replay every entry of type DESCRIPTION is skipped
and every other structured entry produces exactly one comment-creation
call, in input order; in particular a timeline of one description entry
and two note entries produces exactly two calls. -/
theorem replay_skips_description_entries (entries : List TimelineEntry) :
    replayItems (entries.map Sum.inl)
        = entries.filter (fun e => !(e.type == "DESCRIPTION")) ∧
    (replayItems ([⟨"DESCRIPTION", "d", "u", "t1"⟩, ⟨"NOTE", "a", "u", "t2"⟩,
        ⟨"NOTE", "b", "u", "t3"⟩].map Sum.inl)).length = 2 := by
  refine ⟨?_, by decide⟩
  induction entries with
  | nil => rfl
  | cons e rest ih =>
    simp only [List.map_cons, replayItems, List.filter_cons]
    cases he : e.type == "DESCRIPTION"
    · simp only [Bool.false_eq_true, if_false, Bool.not_false, if_true, ih]
    · simp only [if_true, Bool.not_true, Bool.false_eq_true, if_false, ih]

theorem dedup_inner_fold {β : Type} (m : β → Bool) (k : Nat) :
    ∀ (l : List β) (acc : List Nat),
      l.foldl (fun acc2 b => if m b then (if k ∈ acc2 then acc2 else acc2 ++ [k]) else acc2) acc
        = if k ∈ acc then acc else (if l.any m then acc ++ [k] else acc) := by
  intro l
  induction l with
  | nil =>
    intro acc
    by_cases hk : k ∈ acc <;> simp [hk]
  | cons b bs ih =>
    intro acc
    rw [List.foldl_cons]
    by_cases hk : k ∈ acc
    · have hstep : (if m b then (if k ∈ acc then acc else acc ++ [k]) else acc) = acc := by
        by_cases hmb : m b = true <;> simp [hmb, hk]
      rw [hstep, ih]
      simp [hk]
    · by_cases hmb : m b = true
      · have hstep : (if m b then (if k ∈ acc then acc else acc ++ [k]) else acc)
            = acc ++ [k] := by
          simp [hmb, hk]
        rw [hstep, ih]
        have hk2 : k ∈ acc ++ [k] := by simp
        simp [hk2, hk, List.any_cons, hmb]
      · have hstep : (if m b then (if k ∈ acc then acc else acc ++ [k]) else acc) = acc := by
          simp [hmb]
        rw [hstep, ih]
        simp [hk, List.any_cons, hmb]

theorem dedup_outer_fold {α : Type} (q : α → Bool) (k : α → Nat) :
    ∀ (l : List α) (acc : List Nat), acc.Nodup →
      (l.foldl (fun acc1 a => if q a then (if k a ∈ acc1 then acc1 else acc1 ++ [k a]) else acc1) acc).Nodup ∧
      (∀ d : Nat,
        d ∈ l.foldl (fun acc1 a => if q a then (if k a ∈ acc1 then acc1 else acc1 ++ [k a]) else acc1) acc ↔
          d ∈ acc ∨ ∃ a ∈ l, q a = true ∧ k a = d) := by
  intro l
  induction l with
  | nil =>
    intro acc hacc
    refine ⟨hacc, fun d => ?_⟩
    simp
  | cons a as ih =>
    intro acc hacc
    by_cases hqa : q a = true
    · by_cases hk : k a ∈ acc
      · have hstep : (if q a then (if k a ∈ acc then acc else acc ++ [k a]) else acc) = acc := by
          simp [hqa, hk]
        rw [List.foldl_cons, hstep]
        obtain ⟨hn, hm⟩ := ih acc hacc
        refine ⟨hn, fun d => ?_⟩
        rw [hm d]
        constructor
        · rintro (h | ⟨a1, ha1, hq1, hk1⟩)
          · exact Or.inl h
          · exact Or.inr ⟨a1, List.mem_cons_of_mem a ha1, hq1, hk1⟩
        · rintro (h | ⟨a1, ha1, hq1, hk1⟩)
          · exact Or.inl h
          · rcases List.mem_cons.mp ha1 with rfl | ha1
            · exact Or.inl (hk1 ▸ hk)
            · exact Or.inr ⟨a1, ha1, hq1, hk1⟩
      · have hstep : (if q a then (if k a ∈ acc then acc else acc ++ [k a]) else acc)
            = acc ++ [k a] := by
          simp [hqa, hk]
        rw [List.foldl_cons, hstep]
        have hacc1 : (acc ++ [k a]).Nodup := by
          rw [List.nodup_append]
          exact ⟨hacc, List.nodup_singleton _, by simpa using hk⟩
        obtain ⟨hn, hm⟩ := ih (acc ++ [k a]) hacc1
        refine ⟨hn, fun d => ?_⟩
        rw [hm d]
        simp only [List.mem_append, List.mem_singleton]
        constructor
        · rintro ((h | rfl) | ⟨a1, ha1, hq1, hk1⟩)
          · exact Or.inl h
          · exact Or.inr ⟨a, List.mem_cons_self a as, hqa, rfl⟩
          · exact Or.inr ⟨a1, List.mem_cons_of_mem a ha1, hq1, hk1⟩
        · rintro (h | ⟨a1, ha1, hq1, hk1⟩)
          · exact Or.inl (Or.inl h)
          · rcases List.mem_cons.mp ha1 with rfl | ha1
            · exact Or.inl (Or.inr hk1.symm)
            · exact Or.inr ⟨a1, ha1, hq1, hk1⟩
    · have hstep : (if q a then (if k a ∈ acc then acc else acc ++ [k a]) else acc) = acc := by
        simp [hqa]
      rw [List.foldl_cons, hstep]
      obtain ⟨hn, hm⟩ := ih acc hacc
      refine ⟨hn, fun d => ?_⟩
      rw [hm d]
      constructor
      · rintro (h | ⟨a1, ha1, hq1, hk1⟩)
        · exact Or.inl h
        · exact Or.inr ⟨a1, List.mem_cons_of_mem a ha1, hq1, hk1⟩
      · rintro (h | ⟨a1, ha1, hq1, hk1⟩)
        · exact Or.inl h
        · rcases List.mem_cons.mp ha1 with rfl | ha1
          · exact absurd hq1 hqa
          · exact Or.inr ⟨a1, ha1, hq1, hk1⟩

theorem stepB_eq (d : Nat) (acc : List Nat) (st : SyncroTicket) :
    stepB d acc st
      = if matchesB d st then (if d ∈ acc then acc else acc ++ [d]) else acc := by
  unfold stepB matchesB
  by_cases h1 : truthyStr st.subject = true
  · by_cases h2 : containsSub (st.subject.getD "") (Nat.repr d) = true <;> simp [h1, h2]
  · simp [h1]

theorem innerB_eq (d : Nat) (syncro : List SyncroTicket) (acc : List Nat) :
    syncro.foldl (stepB d) acc
      = if d ∈ acc then acc else (if syncro.any (matchesB d) then acc ++ [d] else acc) := by
  rw [show stepB d
      = (fun acc2 st => if matchesB d st then (if d ∈ acc2 then acc2 else acc2 ++ [d]) else acc2)
    from funext fun acc2 => funext fun st => stepB_eq d acc2 st]
  exact dedup_inner_fold (matchesB d) d syncro acc

theorem compareB_eq (superops : List (Nat × SuperTicket)) (syncro : List SyncroTicket) :
    compare_tickets_by_subject superops syncro
      = superops.foldl (fun acc1 p =>
          if (truthyStr p.2.subject && truthyNat p.2.displayId
              && syncro.any (matchesB (p.2.displayId.getD 0))) then
            (if p.2.displayId.getD 0 ∈ acc1 then acc1 else acc1 ++ [p.2.displayId.getD 0])
          else acc1) [] := by
  unfold compare_tickets_by_subject
  congr 1
  funext acc p
  by_cases h1 : truthyStr p.2.subject = true
  · by_cases h2 : truthyNat p.2.displayId = true
    · rw [innerB_eq]
      by_cases h3 : syncro.any (matchesB (p.2.displayId.getD 0)) = true
      · simp [h1, h2, h3]
      · simp [h1, h2, h3]
    · simp [h1, h2]
  · simp [h1]

/-- C3: in Strategy B, a display id appears in the output of
`compare_tickets_by_subject` exactly when some source ticket carries it
(with a truthy subject and a truthy display id) and the decimal string of
the display id occurs as a substring anywhere in the subject of some
destination ticket with a truthy subject; the output never repeats a
display id; in particular display id 45 matches a destination subject
containing "4521". -/
theorem strategyB_substring_match (superops : List (Nat × SuperTicket))
    (syncro : List SyncroTicket) :
    (compare_tickets_by_subject superops syncro).Nodup ∧
    (∀ d : Nat, d ∈ compare_tickets_by_subject superops syncro ↔
      ∃ p ∈ superops, truthyStr p.2.subject = true ∧ p.2.displayId = some d ∧ d ≠ 0 ∧
        ∃ st ∈ syncro, truthyStr st.subject = true ∧
          containsSub (st.subject.getD "") (Nat.repr d) = true) ∧
    compare_tickets_by_subject [(1, ⟨some "Printer", some 45, none⟩)]
      [⟨9, some "ticket 4521", none⟩] = [45] := by
  have hmain : (compare_tickets_by_subject superops syncro).Nodup ∧
      (∀ d : Nat, d ∈ compare_tickets_by_subject superops syncro ↔
        ∃ p ∈ superops, truthyStr p.2.subject = true ∧ p.2.displayId = some d ∧ d ≠ 0 ∧
          ∃ st ∈ syncro, truthyStr st.subject = true ∧
            containsSub (st.subject.getD "") (Nat.repr d) = true) := by
    rw [compareB_eq]
    obtain ⟨hn, hm⟩ := dedup_outer_fold
      (fun p => truthyStr p.2.subject && truthyNat p.2.displayId
        && syncro.any (matchesB (p.2.displayId.getD 0)))
      (fun p : Nat × SuperTicket => p.2.displayId.getD 0) superops [] List.nodup_nil
    refine ⟨hn, fun d => ?_⟩
    rw [hm d]
    simp only [List.not_mem_nil, false_or]
    constructor
    · rintro ⟨p, hp, hq, hk⟩
      rw [Bool.and_eq_true, Bool.and_eq_true] at hq
      obtain ⟨⟨hs, hd⟩, hany⟩ := hq
      have hdid : p.2.displayId = some d ∧ d ≠ 0 := by
        cases hopt : p.2.displayId with
        | none =>
          rw [hopt] at hd
          simp [truthyNat] at hd
        | some n =>
          rw [hopt] at hd hk
          simp only [truthyNat, bne_iff_ne, ne_eq] at hd
          simp only [Option.getD_some] at hk
          subst hk
          exact ⟨rfl, by simpa using hd⟩
      rw [List.any_eq_true] at hany
      obtain ⟨st, hst, hmb⟩ := hany
      rw [hk] at hmb
      unfold matchesB at hmb
      rw [Bool.and_eq_true] at hmb
      exact ⟨p, hp, hs, hdid.1, hdid.2, st, hst, hmb.1, hmb.2⟩
    · rintro ⟨p, hp, hs, hdeq, hdne, st, hst, hsub1, hsub2⟩
      have hkd : p.2.displayId.getD 0 = d := by
        rw [hdeq]
        rfl
      refine ⟨p, hp, ?_, hkd⟩
      rw [Bool.and_eq_true, Bool.and_eq_true]
      refine ⟨⟨hs, ?_⟩, ?_⟩
      · rw [hdeq]
        simp [truthyNat, hdne]
      · rw [List.any_eq_true]
        refine ⟨st, hst, ?_⟩
        unfold matchesB
        rw [Bool.and_eq_true, hkd]
        exact ⟨hsub1, hsub2⟩
  exact ⟨hmain.1, hmain.2, by decide⟩

theorem stepA_eq (tid : Nat) (subject created : String) (acc : List Nat)
    (st : SyncroTicket) :
    stepA tid subject created acc st
      = if matchesA subject created st then (if tid ∈ acc then acc else acc ++ [tid])
        else acc := by
  unfold stepA matchesA
  by_cases h1 : truthyStr st.subject = true
  · by_cases h2 : truthyStr st.created_at = true
    · by_cases h3 : (subject == st.subject.getD "") = true
      · by_cases h4 : (created == st.created_at.getD "") = true <;> simp [h1, h2, h3, h4]
      · simp [h1, h2, h3]
    · simp [h1, h2]
  · simp [h1]

theorem innerA_eq (tid : Nat) (subject created : String)
    (syncro : List SyncroTicket) (acc : List Nat) :
    syncro.foldl (stepA tid subject created) acc
      = if tid ∈ acc then acc
        else (if syncro.any (matchesA subject created) then acc ++ [tid] else acc) := by
  rw [show stepA tid subject created
      = (fun acc2 st => if matchesA subject created st then
          (if tid ∈ acc2 then acc2 else acc2 ++ [tid]) else acc2)
    from funext fun acc2 => funext fun st => stepA_eq tid subject created acc2 st]
  exact dedup_inner_fold (matchesA subject created) tid syncro acc

theorem compareA_eq (superops : List (Nat × SuperTicket)) (syncro : List SyncroTicket) :
    compare_tickets_by_subject_and_date superops syncro
      = superops.foldl (fun acc1 p =>
          if (truthyStr p.2.subject && truthyStr p.2.created_time
              && syncro.any (matchesA (p.2.subject.getD "") (p.2.created_time.getD ""))) then
            (if p.1 ∈ acc1 then acc1 else acc1 ++ [p.1])
          else acc1) [] := by
  unfold compare_tickets_by_subject_and_date
  congr 1
  funext acc p
  by_cases h1 : (truthyStr p.2.subject && truthyStr p.2.created_time) = true
  · rw [if_pos h1, innerA_eq]
    rw [Bool.and_eq_true] at h1
    by_cases h3 : syncro.any (matchesA (p.2.subject.getD "") (p.2.created_time.getD "")) = true
    · simp [h1.1, h1.2, h3]
    · simp [h1.1, h1.2, h3]
  · rw [if_neg h1]
    rw [Bool.and_eq_true, not_and] at h1
    by_cases hs : truthyStr p.2.subject = true
    · simp [hs, h1 hs]
    · simp [hs]

/-- C8: in Strategy A, a ticket identifier appears in the output of
`compare_tickets_by_subject_and_date` exactly when some source ticket with
that identifier (with a truthy subject and truthy created time) agrees
with some destination ticket (with truthy fields) on the exact subject
string and the exact created timestamp string, with no normalization of
either; the output never repeats an identifier. -/
theorem strategyA_exact_match (superops : List (Nat × SuperTicket))
    (syncro : List SyncroTicket) :
    (compare_tickets_by_subject_and_date superops syncro).Nodup ∧
    (∀ tid : Nat, tid ∈ compare_tickets_by_subject_and_date superops syncro ↔
      ∃ p ∈ superops, p.1 = tid ∧ truthyStr p.2.subject = true ∧
        truthyStr p.2.created_time = true ∧
        ∃ st ∈ syncro, truthyStr st.subject = true ∧ truthyStr st.created_at = true ∧
          p.2.subject.getD "" = st.subject.getD "" ∧
          p.2.created_time.getD "" = st.created_at.getD "") := by
  rw [compareA_eq]
  obtain ⟨hn, hm⟩ := dedup_outer_fold
    (fun p => truthyStr p.2.subject && truthyStr p.2.created_time
      && syncro.any (matchesA (p.2.subject.getD "") (p.2.created_time.getD "")))
    (fun p : Nat × SuperTicket => p.1) superops [] List.nodup_nil
  refine ⟨hn, fun tid => ?_⟩
  rw [hm tid]
  simp only [List.not_mem_nil, false_or]
  constructor
  · rintro ⟨p, hp, hq, hk⟩
    rw [Bool.and_eq_true, Bool.and_eq_true] at hq
    obtain ⟨⟨hs, hd⟩, hany⟩ := hq
    rw [List.any_eq_true] at hany
    obtain ⟨st, hst, hma⟩ := hany
    unfold matchesA at hma
    rw [Bool.and_eq_true, Bool.and_eq_true, Bool.and_eq_true] at hma
    obtain ⟨⟨⟨hst1, hst2⟩, hst3⟩, hst4⟩ := hma
    rw [beq_iff_eq] at hst3 hst4
    exact ⟨p, hp, hk, hs, hd, st, hst, hst1, hst2, hst3, hst4⟩
  · rintro ⟨p, hp, hk, hs, hd, st, hst, hst1, hst2, hst3, hst4⟩
    refine ⟨p, hp, ?_, hk⟩
    rw [Bool.and_eq_true, Bool.and_eq_true]
    refine ⟨⟨hs, hd⟩, ?_⟩
    rw [List.any_eq_true]
    refine ⟨st, hst, ?_⟩
    unfold matchesA
    rw [Bool.and_eq_true, Bool.and_eq_true, Bool.and_eq_true]
    exact ⟨⟨⟨hst1, hst2⟩, beq_iff_eq.mpr hst3⟩, beq_iff_eq.mpr hst4⟩

theorem getTicketsLoop_complete (l : List STicket) :
    ∀ (fuel p0 : Nat), 1 ≤ fuel → l.length ≤ (p0 + fuel) * 10 →
      getTicketsLoop l fuel p0 = (l.drop (p0 * 10)).filter (fun t => t.ticketId != 0) := by
  intro fuel
  induction fuel with
  | zero =>
    intro p0 h1 _
    omega
  | succ f ih =>
    intro p0 _ h2
    simp only [getTicketsLoop, getTicketPage]
    cases hmore : ticketPageHasMore l p0
    · simp only [Bool.false_eq_true, if_false]
      unfold ticketPageHasMore at hmore
      rw [decide_eq_false_iff_not] at hmore
      have htake : (l.drop (p0 * 10)).take 10 = l.drop (p0 * 10) := by
        apply List.take_of_length_le
        rw [List.length_drop]
        omega
      rw [htake]
    · simp only [if_true]
      unfold ticketPageHasMore at hmore
      rw [decide_eq_true_eq] at hmore
      have hf1 : 1 ≤ f := by omega
      rw [ih (p0 + 1) hf1 (by omega)]
      rw [← List.filter_append]
      congr 1
      have hd : l.drop ((p0 + 1) * 10) = (l.drop (p0 * 10)).drop 10 := by
        rw [List.drop_drop]
        congr 1
        omega
      rw [hd]
      exact List.take_append_drop 10 (l.drop (p0 * 10))

theorem get_tickets_for_client_complete (l : List STicket) (fuel : Nat)
    (h1 : 1 ≤ fuel) (h2 : l.length ≤ fuel * 10) :
    get_tickets_for_client l fuel = l.filter (fun t => t.ticketId != 0) := by
  unfold get_tickets_for_client
  rw [getTicketsLoop_complete l fuel 0 h1 (by omega)]
  simp

/-- C6 counterexample: with a source of 101 clients, the aggregator's
single `getClientList` call (page 1, page size 100, no pagination loop)
drops the 101st client — the client named "100" exists at the source but
is absent from the aggregator's output — so the aggregator does not
return every client. -/
theorem aggregator_drops_client_beyond_100 :
    src101.clients.length = 101 ∧
    (get_all_clients_with_tickets src101 1).length = 100 ∧
    Nat.repr 100 ∈ src101.clients.map SClient.name ∧
    Nat.repr 100 ∉ (get_all_clients_with_tickets src101 1).map Prod.fst :=
  ⟨by decide, by decide, by decide, by decide⟩

/-- C6 amended: the aggregator requests exactly one client page (page 1,
size 100), returning only the clients of that first page — clients beyond
the first 100 are dropped — and, for each returned client, it does return
every one of that client's tickets with a truthy id, paging by 10 without
bound until the source reports no more pages. -/
theorem aggregator_first_page_complete (src : Source) (fuel : Nat)
    (hclients : src.clients.length ≤ 100) (hfuel : 1 ≤ fuel)
    (htickets : ∀ c ∈ src.clients, (src.ticketsOf c.accountId).length ≤ fuel * 10) :
    get_all_clients_with_tickets src fuel
      = src.clients.map (fun c => (c.name,
          ((src.ticketsOf c.accountId).filter (fun t => t.ticketId != 0)).map
            (fun t => (t.ticketId, mkTicketRecord src t)))) := by
  unfold get_all_clients_with_tickets getClientPage
  rw [show (1 - 1) * 100 = 0 from rfl, List.drop_zero, List.take_of_length_le hclients]
  apply List.map_congr_left
  intro c hc
  rw [get_tickets_for_client_complete _ fuel hfuel (htickets c hc)]

/-- Witness for the amended C6 at the concrete one-client source. -/
theorem aggregator_first_page_complete_witness :
    get_all_clients_with_tickets srcW 1
      = srcW.clients.map (fun c => (c.name,
          ((srcW.ticketsOf c.accountId).filter (fun t => t.ticketId != 0)).map
            (fun t => (t.ticketId, mkTicketRecord srcW t)))) :=
  aggregator_first_page_complete srcW 1 (by decide) (by decide) (by decide)
